import Mathlib

/-!
Shallow embedding of the timesheet application's core logic:

* the client-side `TimesheetManager` from `src/script.js` and its second
  variant embedded in `src/reset_admin_force.js` (activity cells, full-day
  leave, leave/permission range marking, totals, employee sync);
* the activities/employees REST endpoints from `src/server-postgres.js`
  (upsert keyed by (dateKey, employeeId, timeSlot), cascade delete).

Where the two client variants differ, both are embedded and named
`...Script` (from `src/script.js`) and `...Reset` (from the
`TimesheetManager` in `src/reset_admin_force.js`).
-/

namespace Timesheet

/-- The fixed ordered catalog of 13 time slots (`this.timeSlots` in both
client variants). -/
def timeSlots : List String :=
  ["9:00-10:00", "10:00-11:00", "11:00-11:10", "11:10-12:00",
   "12:00-01:00", "01:00-01:40", "01:40-03:00", "03:00-03:50",
   "03:50-04:00", "04:00-05:00", "05:00-06:00", "06:00-07:00", "07:00-08:00"]

/-- The first catalog slot, `this.timeSlots[0]`. -/
def firstSlot : String := timeSlots.headD ""

/-- One activity cell value as held in the client cache
(`this.activities[dateKey][employeeId][timeSlot]`).  Numeric page fields are
modelled as `Option Int`: `none` models an absent (or, where noted in the
operations, NaN-valued) field, which is falsy at every read site of this
codebase exactly like an absent one. -/
structure Cell where
  type : String
  description : String
  startPage : Option Int := none
  endPage : Option Int := none
  pagesDone : Option Int := none
  timestamp : String := ""
deriving DecidableEq

/-- Client day state for one fixed (dateKey, employeeId): timeSlot ↦ cell.
Models the slice `this.activities[dateKey][employeeId]`. -/
abbrev DayState := String → Option Cell

/-- The empty day: no slot holds a cell. -/
def emptyDay : DayState := fun _ => none

/-- Successful `setActivity` on the local cache: store the cell under the
slot key (script.js 188-212; reset variant 320-368). -/
def setCell (σ : DayState) (slot : String) (c : Cell) : DayState :=
  fun s => if s = slot then some c else σ s

/-- Successful `clearActivity` on the local cache: delete the slot's cell
(script.js 214-237; reset variant 370-410). -/
def clearCell (σ : DayState) (slot : String) : DayState :=
  fun s => if s = slot then none else σ s

/-- Model of `getActivity` for the fixed day (script.js 181-186). -/
def getActivity (σ : DayState) (slot : String) : Option Cell := σ slot

/-- Model of `isEmployeeOnFullDayLeave` (script.js 354-358; reset variant
999-1003): the first-slot cell exists with type "leave" and description
"FULL_DAY_LEAVE". -/
def isEmployeeOnFullDayLeave (σ : DayState) : Bool :=
  match getActivity σ firstSlot with
  | some a => a.type == "leave" && a.description == "FULL_DAY_LEAVE"
  | none => false

/-- Per-employee totals accumulated by the render loop. -/
structure Totals where
  proofTotal : Int
  epubTotal : Int
  calibrTotal : Int
deriving DecidableEq

/-- One step of the totals loop (script.js 478-486; reset variant 528-537):
a cell contributes its `pagesDone` to the bucket matching its type when
`act && act.pagesDone` is truthy; `parseInt` of the stored number is the
number itself, so truthiness is `pagesDone` present and nonzero. -/
def addCellTotals (t : Totals) (c : Option Cell) : Totals :=
  match c with
  | some act =>
    match act.pagesDone with
    | some p =>
      if p ≠ 0 then
        let t1 := if act.type == "proof" then { t with proofTotal := t.proofTotal + p } else t
        let t2 := if act.type == "epub" then { t1 with epubTotal := t1.epubTotal + p } else t1
        if act.type == "calibr" then { t2 with calibrTotal := t2.calibrTotal + p } else t2
      else t
    | none => t
  | none => t

/-- The aggregation the spec calls `computeTotals`, as inlined in
`renderTimesheet` (script.js 474-487): all zeros when the employee is on
full-day leave, otherwise the totals loop over the 13 catalog slots. -/
def computeTotals (σ : DayState) : Totals :=
  if isEmployeeOnFullDayLeave σ then ⟨0, 0, 0⟩
  else timeSlots.foldl (fun t slot => addCellTotals t (getActivity σ slot)) ⟨0, 0, 0⟩

/-- The full-day-leave marker cell written by `executeFullDayLeave`. -/
def fullDayLeaveCell (ts : String) : Cell :=
  { type := "leave", description := "FULL_DAY_LEAVE", timestamp := ts }

/-- Model of `executeFullDayLeave` on the success path (script.js 360-372;
reset variant 1005-1030): write the marker at the first slot, then clear
slots 1 .. 12 in order. -/
def executeFullDayLeave (ts : String) (σ : DayState) : DayState :=
  (timeSlots.drop 1).foldl clearCell (setCell σ firstSlot (fullDayLeaveCell ts))

/-- JavaScript `String.prototype.trim`: drop whitespace from both ends
(defined on the character list so that concrete inputs evaluate). -/
def jsTrim (s : String) : String :=
  ⟨((s.data.dropWhile (fun c => c.isWhitespace)).reverse.dropWhile
      (fun c => c.isWhitespace)).reverse⟩

/-- JavaScript `Array.prototype.indexOf`: index of the first occurrence,
or -1 when absent. -/
def jsIndexOf (l : List String) (x : String) : Int :=
  match l.indexOf? x with
  | some i => (i : Int)
  | none => -1

/-- Error outcomes of `handleLeavePermissionSubmit`, per the spec's error
taxonomy.  `InvalidRange` is the "End time must be after start time" early
return; `MissingReason` is the "Please enter a reason for permission" early
return (present only in the reset variant). -/
inductive SubmitErr where
  | InvalidRange
  | MissingReason
deriving DecidableEq

/-- The form inputs read by `handleLeavePermissionSubmit`: the action type
("leave" or "permission"), the full-day checkbox, the start/end slot
dropdowns, the raw permission-reason field and the write timestamp. -/
structure SubmitInput where
  actionType : String
  fullDayCheck : Bool
  startSlot : String
  endSlot : String
  permissionReason : String
  ts : String

/-- The range-marking loop (script.js 425-429; reset variant 1177-1184):
write an identical cell to every catalog index in [startIndex, endIndex]
in ascending order.  Indices arise from a successful `indexOf` on the slot
dropdowns, so `timeSlots[i]` is always in the catalog here; other indices
leave the state unchanged. -/
def writeRange (σ : DayState) (startIndex endIndex : Int)
    (type desc ts : String) : DayState :=
  ((List.range (endIndex + 1 - startIndex).toNat).map (fun k => startIndex + k)).foldl
    (fun σ i =>
      match timeSlots.get? i.toNat with
      | some slot => setCell σ slot { type := type, description := desc, timestamp := ts }
      | none => σ)
    σ

/-- Model of `handleLeavePermissionSubmit` from src/script.js (411-433).
Returns the resulting day state together with the error shown, if any; an
early error return leaves the state component equal to the input state,
the code having performed zero writes.  The full-day branch is tested
before the range is validated. -/
def handleLeavePermissionSubmitScript (inp : SubmitInput) (σ : DayState) :
    DayState × Option SubmitErr :=
  let reason := jsTrim inp.permissionReason
  if inp.actionType == "leave" && inp.fullDayCheck then
    (executeFullDayLeave inp.ts σ, none)
  else
    let startIndex := jsIndexOf timeSlots inp.startSlot
    let endIndex := jsIndexOf timeSlots inp.endSlot
    if startIndex > endIndex then (σ, some SubmitErr.InvalidRange)
    else
      let desc := if inp.actionType == "permission" then reason
                  else inp.startSlot ++ " to " ++ inp.endSlot
      (writeRange σ startIndex endIndex inp.actionType desc inp.ts, none)

/-- Model of `handleLeavePermissionSubmit` from the reset_admin_force.js
variant (1126-1195): the range is validated first, then the permission
reason, and only then the full-day branch is taken; the leave description
carries a trailing space in this variant. -/
def handleLeavePermissionSubmitReset (inp : SubmitInput) (σ : DayState) :
    DayState × Option SubmitErr :=
  let reason := jsTrim inp.permissionReason
  let startIndex := jsIndexOf timeSlots inp.startSlot
  let endIndex := jsIndexOf timeSlots inp.endSlot
  if startIndex > endIndex then (σ, some SubmitErr.InvalidRange)
  else if inp.actionType == "permission" && reason == "" then
    (σ, some SubmitErr.MissingReason)
  else if inp.actionType == "leave" && inp.fullDayCheck then
    (executeFullDayLeave inp.ts σ, none)
  else
    let desc := if inp.actionType == "permission" then reason
                else inp.startSlot ++ " to " ++ inp.endSlot ++ " "
    (writeRange σ startIndex endIndex inp.actionType desc inp.ts, none)

/-- JavaScript `parseInt` (radix 10): skip leading whitespace, optional
sign, read leading digits; `none` models NaN (no digit found). -/
def jsParseInt (s : String) : Option Int :=
  let core := fun (l : List Char) =>
    let ds := l.takeWhile (fun c => c.isDigit)
    if ds.isEmpty then (none : Option Nat)
    else some (ds.foldl (fun n c => n * 10 + (c.toNat - 48)) 0)
  match s.data.dropWhile (fun c => c.isWhitespace) with
  | '-' :: rest => (core rest).map (fun n => -(n : Int))
  | '+' :: rest => (core rest).map (fun n => (n : Int))
  | cs => (core cs).map (fun n => (n : Int))

/-- JavaScript `parseInt(x) || 0`: NaN (and 0 itself) become 0. -/
def parseIntOr0 (s : String) : Int := (jsParseInt s).getD 0

/-- Helper for `String.prototype.includes` on character lists. -/
def containsChars (pat : List Char) : List Char → Bool
  | [] => pat.isEmpty
  | c :: rest => pat.isPrefixOf (c :: rest) || containsChars pat rest

/-- JavaScript `String.prototype.includes`. -/
def jsIncludes (s pat : String) : Bool := containsChars pat.data s.data

/-- The activity cell built by `handleActivitySubmit` in src/script.js
(562-580): for paginated types both page inputs default to 0 via
`parseInt(...) || 0`, `pagesDone = Math.max(0, end - start + 1)` is always
stored, and the page info is appended to the raw (untrimmed) description;
for other types `pagesDone` is stored as its initial value 0.  The start
and end pages themselves are not stored in this variant. -/
def activityDataScript (type desc startStr endStr ts : String) : Cell :=
  if type == "proof" || type == "epub" || type == "calibr" then
    let start := parseIntOr0 startStr
    let e := parseIntOr0 endStr
    let pd := max 0 (e - start + 1)
    { type := type,
      description := desc ++ " (Pages: " ++ toString start ++ " - " ++ toString e ++
        ", Total: " ++ toString pd ++ ")",
      pagesDone := some pd, timestamp := ts }
  else
    { type := type, description := desc, pagesDone := some 0, timestamp := ts }

/-- The activity cell built by `handleActivitySubmit` in the
reset_admin_force.js variant (908-974): description is trimmed (upper-cased
literal for break/lunch); for paginated types the page fields and
`pagesDone = Math.max(0, end - start + 1)` are stored only when both page
inputs are non-empty strings, and the page info is appended unless the
description already includes "Pages:".  Non-numeric non-empty page inputs
produce NaN page fields in JS, modelled as absent (NaN is falsy at every
read site, exactly like an absent field). -/
def activityDataReset (type desc startStr endStr ts : String) : Cell :=
  let description := if type == "break" || type == "lunch" then type.toUpper else jsTrim desc
  let base : Cell := { type := type, description := description, timestamp := ts }
  if (type == "proof" || type == "epub" || type == "calibr") &&
      (startStr != "" && endStr != "") then
    match jsParseInt startStr, jsParseInt endStr with
    | some s, some e =>
      let total := max 0 (e - s + 1)
      let pageInfo := " (Pages: " ++ toString s ++ " - " ++ toString e ++
        ", Total: " ++ toString total ++ ")"
      { base with
        startPage := some s, endPage := some e, pagesDone := some total,
        description := if jsIncludes description "Pages:" then description
                       else description ++ pageInfo }
    | _, _ => base
  else base

/-- An employees-table row (src/server-postgres.js 45-50). -/
structure EmpRow where
  id : String
  name : String
  email : String := ""
  createdAt : String := ""
deriving DecidableEq

/-- The value columns of an activities-table row (src/server-postgres.js
54-66); nullable columns are `Option`.  These are exactly the fields the
GET endpoint returns per cell (292-298). -/
structure ActValue where
  type : String
  description : Option String := none
  totalPages : Option String := none
  pagesDone : Option String := none
  timestamp : Option String := none
deriving DecidableEq

/-- The key of an activity row: (dateKey, employeeId, timeSlot), the
`unique_activity` constraint columns. -/
abbrev ActKey := String × String × String

/-- The persistent store: employees, activities and the
`deleted_activities` archive table (rows tagged with `deletedAt`). -/
structure Db where
  employees : List EmpRow := []
  activities : List (ActKey × ActValue) := []
  deletedActivities : List (ActKey × ActValue × String) := []
deriving DecidableEq

/-- Number of activity rows stored under a key. -/
def countKey (rows : List (ActKey × ActValue)) (k : ActKey) : Nat :=
  rows.countP (fun r => decide (r.1 = k))

/-- The upsert of POST /api/activities (307-327): `INSERT ... ON CONFLICT
(dateKey, employeeId, timeSlot) DO UPDATE SET` every value column. -/
def upsertActivity (rows : List (ActKey × ActValue)) (k : ActKey) (v : ActValue) :
    List (ActKey × ActValue) :=
  if rows.any (fun r => decide (r.1 = k)) then
    rows.map (fun r => if r.1 = k then (k, v) else r)
  else rows ++ [(k, v)]

/-- POST /api/activities: the endpoint validates no field; the insert can
only fail on the `fk_employee` foreign key (employeeId must exist), which
surfaces as a 500. -/
def postActivity (db : Db) (k : ActKey) (v : ActValue) : Except String Db :=
  if db.employees.any (fun e => decide (e.id = k.2.1)) then
    Except.ok { db with activities := upsertActivity db.activities k v }
  else Except.error "foreign key violation"

/-- The per-cell read of GET /api/activities (275-305): the nested
dateKey/employeeId/timeSlot map entry for a key. -/
def getActivityCell (db : Db) (k : ActKey) : Option ActValue :=
  (db.activities.find? (fun r => decide (r.1 = k))).map (fun r => r.2)

/-- POST /api/employees (195-245), success path: reject a duplicate name
under a different id, else upsert by id (`ON CONFLICT (id) DO UPDATE SET
name, email`).  The optional credential bundling touches only the users
table and is not modelled. -/
def postEmployee (db : Db) (e : EmpRow) : Except String Db :=
  if db.employees.any (fun x => decide (x.name = e.name ∧ x.id ≠ e.id)) then
    Except.error "Employee already exists"
  else
    Except.ok { db with
      employees :=
        if db.employees.any (fun x => decide (x.id = e.id)) then
          db.employees.map (fun x =>
            if x.id = e.id then { x with name := e.name, email := e.email } else x)
        else db.employees ++ [e] }

/-- DELETE /api/employees/:id (247-272): archive the employee's activity
rows into deleted_activities, delete them, delete the employee row, and
return `changes`, the row count of the employees DELETE. -/
def deleteEmployeeApi (db : Db) (id : String) (deletedAt : String) : Db × Nat :=
  let archived := db.activities.filter (fun r => decide (r.1.2.1 = id))
  ({ employees := db.employees.filter (fun e => decide (e.id ≠ id)),
     activities := db.activities.filter (fun r => decide (r.1.2.1 ≠ id)),
     deletedActivities :=
       db.deletedActivities ++ archived.map (fun r => (r.1, r.2, deletedAt)) },
   (db.employees.filter (fun e => decide (e.id = id))).length)

/-- Roster record as the sync logic sees it. -/
structure Employee where
  id : String
  name : String
deriving DecidableEq

/-- The hardcoded canonical allow-list (reset_admin_force.js 113-117). -/
def allowedEmployees : List String :=
  ["Anitha", "Asha", "Aswini", "Balaji", "Dhivya", "Dharma",
   "Jegan", "Kamal", "Kumaran", "Loki", "Mani", "Nandhini", "Sakthi",
   "Sandhiya", "Sangeetha", "Vivek", "Yogesh"]

/-- The duplicate scan of `syncEmployees` (script.js 74-79; reset variant
140-149): employees whose name was already seen earlier in roster order. -/
def findDuplicates (roster : List Employee) : List Employee :=
  (roster.foldl
    (fun (acc : List String × List Employee) e =>
      if acc.1.contains e.name then (acc.1, acc.2 ++ [e])
      else (acc.1 ++ [e.name], acc.2))
    ([], [])).2

/-- Successful `deleteEmployee(id, true)` at roster level: the record is
removed (the server-side activity cascade is modelled by
`deleteEmployeeApi`). -/
def removeById (roster : List Employee) (id : String) : List Employee :=
  roster.filter (fun e => decide (e.id ≠ id))

/-- Fresh id for a created employee, abstracting the Date.now()+random id
built in `addEmployee`; nothing proved here depends on its shape. -/
def freshEmployeeId (name : String) : String := "new:" ++ name

/-- Step 4 of the reset-variant sync (160-165): for each allow-list name
in order, add it when no roster member has that name (each successful
`addEmployee` pushes onto the roster before the next check). -/
def addMissingEmployees (allowed : List String) (roster : List Employee) :
    List Employee :=
  allowed.foldl
    (fun r n => if r.any (fun e => decide (e.name = n)) then r
                else r ++ [⟨freshEmployeeId n, n⟩])
    roster

/-- Model of `syncEmployees` from reset_admin_force.js (112-170),
parametric in the allow-list (hardcoded there as `allowedEmployees`).  The
general allow-list removal is commented out in the source ("DISABLED to
prevent data loss"); only the single name "Dhivyaharini" is removed.  Then
duplicates are removed keeping the first occurrence of each name, the
roster is reloaded, and missing allow-list names are created.  On the
success path the local and durable rosters evolve in lock-step, so one
list models both and the reload steps are identities. -/
def syncEmployeesWith (allowed : List String) (roster : List Employee) :
    List Employee :=
  let r1 := match roster.find? (fun e => decide (e.name = "Dhivyaharini")) with
            | some e => removeById roster e.id
            | none => roster
  let r2 := (findDuplicates r1).foldl (fun r e => removeById r e.id) r1
  addMissingEmployees allowed r2

/-- The reset-variant sync with its hardcoded allow-list. -/
def syncEmployeesReset (roster : List Employee) : List Employee :=
  syncEmployeesWith allowedEmployees roster

/-- Model of `syncEmployees` from src/script.js (72-84): duplicate removal
only — no allow-list removal and no creation of missing names. -/
def syncEmployeesScript (roster : List Employee) : List Employee :=
  (findDuplicates roster).foldl (fun r e => removeById r e.id) roster

/-- Concrete employee used by the C10 reachability chain. -/
def empA : EmpRow := ⟨"e1", "A", "", "c"⟩

/-- The full-day-leave marker as stored by the adapter. -/
def leaveMarkerVal : ActValue :=
  { type := "leave", description := some "FULL_DAY_LEAVE", timestamp := some "t1" }

/-- An ordinary work cell value. -/
def workVal : ActValue :=
  { type := "work", description := some "x", timestamp := some "t2" }

/-- First-slot key for employee e1 on 2025-01-10. -/
def keyFirst : ActKey := ("2025-01-10", "e1", "9:00-10:00")

/-- Second-slot key for employee e1 on 2025-01-10. -/
def keySecond : ActKey := ("2025-01-10", "e1", "10:00-11:00")

/-- State after creating employee e1. -/
def dbStep1 : Db := { employees := [empA] }

/-- State after writing the full-day-leave marker at the first slot. -/
def dbStep2 : Db := { employees := [empA], activities := [(keyFirst, leaveMarkerVal)] }

/-- State after the adapter additionally accepts a work cell at another
slot of the same day — a state violating invariant I2. -/
def dbStep3 : Db :=
  { employees := [empA],
    activities := [(keyFirst, leaveMarkerVal), (keySecond, workVal)] }

/-- Concrete store for the C9 counterexample: one employee with two
activity rows. -/
def dbTwoActs : Db :=
  { employees := [empA],
    activities := [(keyFirst, workVal), (keySecond, workVal)] }

end Timesheet

namespace Timesheet

/-- C1: if the first-slot cell has type "leave" and description
"FULL_DAY_LEAVE", then `isEmployeeOnFullDayLeave` returns true and the
totals are all zero, regardless of every other slot's contents. -/
theorem claim1_fullDayLeave_zero_totals (σ : DayState) (c : Cell)
    (hc : σ firstSlot = some c) (ht : c.type = "leave")
    (hd : c.description = "FULL_DAY_LEAVE") :
    isEmployeeOnFullDayLeave σ = true ∧ computeTotals σ = ⟨0, 0, 0⟩ := by
  have hb : isEmployeeOnFullDayLeave σ = true := by
    simp [isEmployeeOnFullDayLeave, getActivity, hc, ht, hd]
  exact ⟨hb, by simp [computeTotals, hb]⟩

/-- C1 witness: the theorem applied to a concrete day holding the marker at
the first slot and a proof cell elsewhere. -/
theorem claim1_fullDayLeave_zero_totals_witness :
    isEmployeeOnFullDayLeave
        (setCell (setCell emptyDay "10:00-11:00"
          { type := "proof", description := "d", pagesDone := some 7 })
          firstSlot (fullDayLeaveCell "t")) = true ∧
    computeTotals
        (setCell (setCell emptyDay "10:00-11:00"
          { type := "proof", description := "d", pagesDone := some 7 })
          firstSlot (fullDayLeaveCell "t")) = ⟨0, 0, 0⟩ :=
  claim1_fullDayLeave_zero_totals _ (fullDayLeaveCell "t")
    (by simp [setCell]) rfl rfl

/-- C2: after `executeFullDayLeave` completes successfully, the first slot
holds the leave/"FULL_DAY_LEAVE" marker and every other catalog slot is
absent, for every prior day state. -/
theorem claim2_markFullDayLeave_establishes_I2 (σ : DayState) (ts : String) :
    (executeFullDayLeave ts σ) firstSlot = some (fullDayLeaveCell ts) ∧
    ∀ slot ∈ timeSlots.drop 1, (executeFullDayLeave ts σ) slot = none := by
  constructor
  · simp [executeFullDayLeave, timeSlots, firstSlot, clearCell, setCell]
  · intro slot h
    simp only [timeSlots, List.drop, List.mem_cons, List.not_mem_nil, or_false] at h
    rcases h with rfl | rfl | rfl | rfl | rfl | rfl | rfl | rfl | rfl | rfl | rfl | rfl <;>
      simp [executeFullDayLeave, timeSlots, firstSlot, clearCell, setCell]

/-- C2 witness: the theorem applied to a concrete day with a work cell in a
slot that the operation must clear. -/
theorem claim2_markFullDayLeave_witness :
    (executeFullDayLeave "t"
      (setCell emptyDay "10:00-11:00" { type := "work", description := "w" }))
      "10:00-11:00" = none :=
  (claim2_markFullDayLeave_establishes_I2
      (setCell emptyDay "10:00-11:00" { type := "work", description := "w" }) "t").2
    "10:00-11:00" (by simp [timeSlots])

/-- C3 counterexample: in the src/script.js handler, a permission request
over a valid range with an empty reason is NOT rejected — no error is
shown and the range write goes through, storing a permission cell with
empty description at the selected slot. -/
theorem claim3_empty_reason_counterexample :
    (handleLeavePermissionSubmitScript
        ⟨"permission", false, "9:00-10:00", "9:00-10:00", "", "t"⟩ emptyDay).2 = none ∧
    (handleLeavePermissionSubmitScript
        ⟨"permission", false, "9:00-10:00", "9:00-10:00", "", "t"⟩ emptyDay).1 "9:00-10:00" =
      some { type := "permission", description := "", timestamp := "t" } := by
  exact ⟨by decide, by decide⟩

/-- C3 amended: only the reset_admin_force.js variant rejects a permission
range with an empty (trimmed) reason — with MissingReason, state unchanged,
before any write; the src/script.js variant performs the range writes with
the empty description. -/
theorem claim3_missing_reason_reset_only :
    (∀ inp σ, inp.actionType = "permission" → jsTrim inp.permissionReason = "" →
      jsIndexOf timeSlots inp.startSlot ≤ jsIndexOf timeSlots inp.endSlot →
      handleLeavePermissionSubmitReset inp σ = (σ, some SubmitErr.MissingReason)) ∧
    (∀ inp σ, inp.actionType = "permission" → jsTrim inp.permissionReason = "" →
      jsIndexOf timeSlots inp.startSlot ≤ jsIndexOf timeSlots inp.endSlot →
      handleLeavePermissionSubmitScript inp σ =
        (writeRange σ (jsIndexOf timeSlots inp.startSlot)
          (jsIndexOf timeSlots inp.endSlot) inp.actionType "" inp.ts, none)) := by
  constructor
  · intro inp σ htype hreason hr
    have hnot : ¬ jsIndexOf timeSlots inp.startSlot > jsIndexOf timeSlots inp.endSlot :=
      not_lt.mpr hr
    simp [handleLeavePermissionSubmitReset, hnot, htype, hreason]
  · intro inp σ htype hreason hr
    have hnot : ¬ jsIndexOf timeSlots inp.startSlot > jsIndexOf timeSlots inp.endSlot :=
      not_lt.mpr hr
    simp [handleLeavePermissionSubmitScript, hnot, htype, hreason]

/-- C3 witness: the amended theorem applied at a concrete input (reason of
blanks, full-day slot range). -/
theorem claim3_missing_reason_witness :
    handleLeavePermissionSubmitReset
        ⟨"permission", false, "9:00-10:00", "07:00-08:00", "   ", "t"⟩ emptyDay =
      (emptyDay, some SubmitErr.MissingReason) :=
  claim3_missing_reason_reset_only.1
    ⟨"permission", false, "9:00-10:00", "07:00-08:00", "   ", "t"⟩ emptyDay
    rfl (by decide) (by decide)

/-- C4: in both client variants, a range-marking submit whose start slot's
catalog index exceeds the end slot's index fails with InvalidRange and
leaves the day state exactly as it was (zero writes).  The hypothesis
`hmark` states that the invocation is a range operation (not the script
variant's full-day bypass, which is settled by C5). -/
theorem claim4_invalid_range_rejected (inp : SubmitInput) (σ : DayState)
    (hrange : jsIndexOf timeSlots inp.startSlot > jsIndexOf timeSlots inp.endSlot)
    (hmark : inp.actionType ≠ "leave" ∨ inp.fullDayCheck = false) :
    handleLeavePermissionSubmitScript inp σ = (σ, some SubmitErr.InvalidRange) ∧
    handleLeavePermissionSubmitReset inp σ = (σ, some SubmitErr.InvalidRange) := by
  constructor
  · have hcond : (inp.actionType == "leave" && inp.fullDayCheck) = false := by
      rcases hmark with h | h
      · simp [h]
      · simp [h]
    simp [handleLeavePermissionSubmitScript, hcond, hrange]
  · simp [handleLeavePermissionSubmitReset, hrange]

/-- C4 witness: the theorem applied to a concrete inverted range. -/
theorem claim4_invalid_range_witness :
    handleLeavePermissionSubmitScript
        ⟨"leave", false, "04:00-05:00", "9:00-10:00", "x", "t"⟩ emptyDay =
      (emptyDay, some SubmitErr.InvalidRange) ∧
    handleLeavePermissionSubmitReset
        ⟨"leave", false, "04:00-05:00", "9:00-10:00", "x", "t"⟩ emptyDay =
      (emptyDay, some SubmitErr.InvalidRange) :=
  claim4_invalid_range_rejected
    ⟨"leave", false, "04:00-05:00", "9:00-10:00", "x", "t"⟩ emptyDay
    (by decide) (Or.inr rfl)

/-- C5 counterexample: in the reset_admin_force.js variant, a full-day
leave request with an inverted start/end selection does NOT bypass the
range logic — it fails with InvalidRange and never writes the marker,
unlike a direct `markFullDayLeave` call. -/
theorem claim5_bypass_counterexample :
    (handleLeavePermissionSubmitReset
        ⟨"leave", true, "10:00-11:00", "9:00-10:00", "", "t"⟩ emptyDay).2 =
      some SubmitErr.InvalidRange ∧
    (handleLeavePermissionSubmitReset
        ⟨"leave", true, "10:00-11:00", "9:00-10:00", "", "t"⟩ emptyDay).1 firstSlot = none ∧
    (executeFullDayLeave "t" emptyDay) firstSlot = some (fullDayLeaveCell "t") := by
  refine ⟨by decide, by decide, by decide⟩

/-- C5 amended: in the src/script.js variant the full-day flag bypasses the
range logic entirely for every start/end selection, invoking
`executeFullDayLeave` directly; in the reset_admin_force.js variant the
bypass happens only after range validation, i.e. for selections with start
index at most end index. -/
theorem claim5_full_day_bypass :
    (∀ inp σ, inp.actionType = "leave" → inp.fullDayCheck = true →
      handleLeavePermissionSubmitScript inp σ = (executeFullDayLeave inp.ts σ, none)) ∧
    (∀ inp σ, inp.actionType = "leave" → inp.fullDayCheck = true →
      jsIndexOf timeSlots inp.startSlot ≤ jsIndexOf timeSlots inp.endSlot →
      handleLeavePermissionSubmitReset inp σ = (executeFullDayLeave inp.ts σ, none)) := by
  constructor
  · intro inp σ ht hf
    simp [handleLeavePermissionSubmitScript, ht, hf]
  · intro inp σ ht hf hr
    have hnot : ¬ jsIndexOf timeSlots inp.startSlot > jsIndexOf timeSlots inp.endSlot :=
      not_lt.mpr hr
    simp [handleLeavePermissionSubmitReset, hnot, ht, hf]

/-- C5 witness: the script-variant bypass at a concrete input whose
selection would be invalid as a range. -/
theorem claim5_full_day_bypass_witness :
    handleLeavePermissionSubmitScript
        ⟨"leave", true, "10:00-11:00", "9:00-10:00", "", "t"⟩ emptyDay =
      (executeFullDayLeave "t" emptyDay, none) :=
  claim5_full_day_bypass.1
    ⟨"leave", true, "10:00-11:00", "9:00-10:00", "", "t"⟩ emptyDay rfl rfl

/-- C6 counterexample: in the src/script.js submit handler, a paginated
cell with BOTH page bounds absent still stores a `pagesDone` — the bounds
default to 0 and `pagesDone = max(0, 0 - 0 + 1) = 1` — where the claim
requires it to be absent. -/
theorem claim6_pages_done_counterexample :
    (activityDataScript "proof" "x" "" "" "t").pagesDone = some 1 := by
  decide

/-- C6 amended: in the reset_admin_force.js variant, `pagesDone` equals
`max(0, endPage - startPage + 1)` when both page inputs are given and is
absent when either is empty; in the src/script.js variant absent bounds
default to 0 and `pagesDone` is always stored.  The scenario — a
proof cell with pages 10..19 at the first slot yields `pagesDone = 10` and
totals {proofTotal: 10, epubTotal: 0, calibrTotal: 0} — holds in both
variants. -/
theorem claim6_pages_done :
    (∀ type desc startStr endStr ts s e,
      (type = "proof" ∨ type = "epub" ∨ type = "calibr") →
      startStr ≠ "" → endStr ≠ "" →
      jsParseInt startStr = some s → jsParseInt endStr = some e →
      (activityDataReset type desc startStr endStr ts).pagesDone =
        some (max 0 (e - s + 1))) ∧
    (∀ type desc startStr endStr ts, startStr = "" ∨ endStr = "" →
      (activityDataReset type desc startStr endStr ts).pagesDone = none) ∧
    ((activityDataScript "proof" "d" "10" "19" "t").pagesDone = some 10 ∧
     (activityDataReset "proof" "d" "10" "19" "t").pagesDone = some 10 ∧
     computeTotals (setCell emptyDay firstSlot
       (activityDataScript "proof" "d" "10" "19" "t")) = ⟨10, 0, 0⟩ ∧
     computeTotals (setCell emptyDay firstSlot
       (activityDataReset "proof" "d" "10" "19" "t")) = ⟨10, 0, 0⟩) := by
  refine ⟨?_, ?_, by decide, by decide, by decide, by decide⟩
  · intro type desc startStr endStr ts s e htype hs he hps hpe
    rcases htype with rfl | rfl | rfl <;>
      simp [activityDataReset, hs, he, hps, hpe]
  · intro type desc startStr endStr ts h
    rcases h with rfl | rfl <;> simp [activityDataReset]

/-- C6 witness: the amended theorem's first conjunct applied at concrete
page inputs. -/
theorem claim6_pages_done_witness :
    (activityDataReset "epub" "d" "5" "9" "t").pagesDone = some (max 0 (9 - 5 + 1)) :=
  claim6_pages_done.1 "epub" "d" "5" "9" "t" 5 9 (Or.inr (Or.inl rfl))
    (by decide) (by decide) (by decide) (by decide)

/-- Replacing the value of every row keyed `k` makes the first `k`-row
`(k, v)`, provided some row is keyed `k`. -/
theorem find?_map_replace (k : ActKey) (v : ActValue)
    (rows : List (ActKey × ActValue))
    (h : rows.any (fun r => decide (r.1 = k)) = true) :
    (rows.map (fun r => if r.1 = k then (k, v) else r)).find?
      (fun r => decide (r.1 = k)) = some (k, v) := by
  induction rows with
  | nil => simp at h
  | cons a rest ih =>
    by_cases hak : a.1 = k
    · simp [hak]
    · have h2 : rest.any (fun r => decide (r.1 = k)) = true := by
        simpa [hak] using h
      simpa [hak] using ih h2

/-- After an upsert, the first row keyed `k` holds the written value. -/
theorem find?_upsert (rows : List (ActKey × ActValue)) (k : ActKey) (v : ActValue) :
    (upsertActivity rows k v).find? (fun r => decide (r.1 = k)) = some (k, v) := by
  by_cases hany : rows.any (fun r => decide (r.1 = k)) = true
  · rw [upsertActivity, if_pos hany]
    exact find?_map_replace k v rows hany
  · rw [upsertActivity, if_neg hany]
    have hnone : rows.find? (fun r => decide (r.1 = k)) = none := by
      rw [List.find?_eq_none]
      intro x hx
      intro hpx
      exact hany (List.any_eq_true.mpr ⟨x, hx, hpx⟩)
    simp [List.find?_append, hnone]

/-- Replacing values preserves the number of rows keyed `k`. -/
theorem countKey_map_replace (k : ActKey) (v : ActValue)
    (rows : List (ActKey × ActValue)) :
    countKey (rows.map (fun r => if r.1 = k then (k, v) else r)) k =
      countKey rows k := by
  induction rows with
  | nil => rfl
  | cons a rest ih =>
    by_cases hak : a.1 = k <;>
      simp [countKey, List.countP_cons, hak] at ih ⊢ <;> omega

/-- An upsert leaves exactly one row keyed `k`, given the unique-key
invariant held before. -/
theorem countKey_upsert (rows : List (ActKey × ActValue)) (k : ActKey)
    (v : ActValue) (h : countKey rows k ≤ 1) :
    countKey (upsertActivity rows k v) k = 1 := by
  by_cases hany : rows.any (fun r => decide (r.1 = k)) = true
  · have h1 : 0 < countKey rows k := by
      obtain ⟨x, hx, hpx⟩ := List.any_eq_true.mp hany
      exact List.countP_pos_iff.mpr ⟨x, hx, hpx⟩
    rw [upsertActivity, if_pos hany, countKey_map_replace]
    omega
  · have h0 : countKey rows k = 0 := by
      rw [countKey, List.countP_eq_zero]
      intro x hx hpx
      exact hany (List.any_eq_true.mpr ⟨x, hx, hpx⟩)
    rw [upsertActivity, if_neg hany]
    unfold countKey at h0 ⊢
    rw [List.countP_append, h0]
    simp [List.countP_cons]

/-- C7: on the adapter, `set` followed by `get` returns the written cell
exactly, and a second `set` to the same key with a different type leaves
exactly one row at that key holding the second value.  Hypotheses: the
employee exists (the `fk_employee` constraint) and the key was unique
before (the `unique_activity` constraint, invariant I1). -/
theorem claim7_set_get_roundtrip (db : Db) (k : ActKey) (v v2 : ActValue)
    (hemp : db.employees.any (fun e => decide (e.id = k.2.1)) = true)
    (huniq : countKey db.activities k ≤ 1)
    (_hty : v.type ≠ v2.type) :
    postActivity db k v =
      Except.ok { db with activities := upsertActivity db.activities k v } ∧
    getActivityCell { db with activities := upsertActivity db.activities k v } k =
      some v ∧
    countKey (upsertActivity db.activities k v) k = 1 ∧
    getActivityCell { db with
      activities := upsertActivity (upsertActivity db.activities k v) k v2 } k =
      some v2 ∧
    countKey (upsertActivity (upsertActivity db.activities k v) k v2) k = 1 := by
  refine ⟨?_, ?_, ?_, ?_, ?_⟩
  · rw [postActivity, if_pos hemp]
  · simp [getActivityCell, find?_upsert]
  · exact countKey_upsert _ _ _ huniq
  · simp [getActivityCell, find?_upsert]
  · exact countKey_upsert _ _ _ (countKey_upsert _ _ _ huniq).le

/-- C7 witness: the round-trip applied at a concrete store, key and pair
of differently-typed values. -/
theorem claim7_set_get_roundtrip_witness :
    getActivityCell { dbStep1 with
        activities := upsertActivity dbStep1.activities keyFirst workVal } keyFirst =
      some workVal :=
  (claim7_set_get_roundtrip dbStep1 keyFirst workVal leaveMarkerVal
    (by decide) (by decide) (by decide)).2.1

/-- C8 counterexample: an employee whose name is not on the hardcoded
allow-list survives the reset-variant sync — the general allow-list
removal is disabled in the source. -/
theorem claim8_no_allowlist_removal :
    Employee.mk "1" "Zorro" ∈ syncEmployeesReset [⟨"1", "Zorro"⟩] ∧
    "Zorro" ∉ allowedEmployees := by
  constructor <;> decide

/-- Appending-only growth: `addMissingEmployees` preserves any satisfied
roster predicate. -/
theorem any_addMissingEmployees (p : Employee → Bool) (allowed : List String)
    (roster : List Employee) (h : roster.any p = true) :
    (addMissingEmployees allowed roster).any p = true := by
  induction allowed generalizing roster with
  | nil => exact h
  | cons a rest ih =>
    have hstep : addMissingEmployees (a :: rest) roster =
        addMissingEmployees rest
          (if roster.any (fun e => decide (e.name = a)) then roster
           else roster ++ [⟨freshEmployeeId a, a⟩]) := rfl
    rw [hstep]
    apply ih
    by_cases hc : roster.any (fun e => decide (e.name = a)) = true
    · simpa [hc] using h
    · simp only [hc, if_neg, Bool.not_eq_true, if_false]
      simp [List.any_append, h]

/-- Every allow-list name is present after `addMissingEmployees`. -/
theorem name_mem_addMissingEmployees (allowed : List String)
    (roster : List Employee) (n : String) (h : n ∈ allowed) :
    (addMissingEmployees allowed roster).any
      (fun e => decide (e.name = n)) = true := by
  induction allowed generalizing roster with
  | nil => cases h
  | cons a rest ih =>
    have hstep : addMissingEmployees (a :: rest) roster =
        addMissingEmployees rest
          (if roster.any (fun e => decide (e.name = a)) then roster
           else roster ++ [⟨freshEmployeeId a, a⟩]) := rfl
    rw [hstep]
    rcases List.mem_cons.mp h with rfl | hmem
    · apply any_addMissingEmployees
      by_cases hc : roster.any (fun e => decide (e.name = n)) = true
      · simp [hc]
      · simp [hc, List.any_append]
    · exact ih _ hmem

/-- C8 amended: the reset-variant sync performs no general allow-list
removal (only the hardcoded "Dhivyaharini"); duplicates by name are
removed keeping the first occurrence with its id, every allow-list name
missing from the roster is created, and the spec's scenario — roster
[A, A(dup), B] with allow-list [A, B] — yields [A, B] with A's first id.
The src/script.js variant performs only the duplicate removal. -/
theorem claim8_sync_behaviour :
    (syncEmployeesWith ["A", "B"] [⟨"1", "A"⟩, ⟨"2", "A"⟩, ⟨"3", "B"⟩] =
      [⟨"1", "A"⟩, ⟨"3", "B"⟩]) ∧
    (∀ allowed roster n, n ∈ allowed →
      ∃ e ∈ syncEmployeesWith allowed roster, e.name = n) ∧
    (syncEmployeesScript [⟨"1", "A"⟩, ⟨"2", "A"⟩, ⟨"3", "B"⟩] =
      [⟨"1", "A"⟩, ⟨"3", "B"⟩]) := by
  refine ⟨by decide, ?_, by decide⟩
  intro allowed roster n hn
  have h : (syncEmployeesWith allowed roster).any
      (fun e => decide (e.name = n)) = true :=
    name_mem_addMissingEmployees allowed _ n hn
  obtain ⟨e, he, hpe⟩ := List.any_eq_true.mp h
  exact ⟨e, he, by simpa using hpe⟩

/-- C8 witness: the amended theorem's creation clause at a concrete
allow-list and empty roster. -/
theorem claim8_sync_witness :
    ∃ e ∈ syncEmployeesWith ["X"] [], e.name = "X" :=
  claim8_sync_behaviour.2.1 ["X"] [] "X" (by decide)

/-- C9 counterexample: deleting an employee that has two activity rows
returns `changes = 1` (the employees DELETE row count), not 2 (the number
of removed activity rows). -/
theorem claim9_changes_counterexample :
    (deleteEmployeeApi dbTwoActs "e1" "d").2 = 1 ∧
    (dbTwoActs.activities.filter (fun r => decide (r.1.2.1 = "e1"))).length = 2 := by
  constructor <;> decide

/-- C9 amended: the endpoint removes the employee and all of that
employee's activity rows across all dates, archiving them into
deleted_activities first, but the count it returns is the number of
removed EMPLOYEE rows (1 when the id existed, else 0), not the number of
removed activity rows. -/
theorem claim9_cascade_delete (db : Db) (id deletedAt : String) :
    (∀ e ∈ (deleteEmployeeApi db id deletedAt).1.employees, e.id ≠ id) ∧
    (∀ r ∈ (deleteEmployeeApi db id deletedAt).1.activities, r.1.2.1 ≠ id) ∧
    (deleteEmployeeApi db id deletedAt).1.deletedActivities =
      db.deletedActivities ++
        (db.activities.filter (fun r => decide (r.1.2.1 = id))).map
          (fun r => (r.1, r.2, deletedAt)) ∧
    (deleteEmployeeApi db id deletedAt).2 =
      (db.employees.filter (fun e => decide (e.id = id))).length := by
  refine ⟨?_, ?_, rfl, rfl⟩
  · intro e he
    have h := List.of_mem_filter he
    simpa using h
  · intro r hr
    have h := List.of_mem_filter hr
    simpa using h

/-- C9 witness: the amended theorem applied to a concrete store, deleting
an id that is not the surviving employee's. -/
theorem claim9_cascade_delete_witness : empA.id ≠ "zz" :=
  (claim9_cascade_delete dbTwoActs "zz" "d").1 empA (by decide)

/-- C10: the store-level set validates no field and enforces only key
uniqueness: from the empty store, creating employee A, writing the
full-day-leave marker at the first slot and then writing a work cell at
another slot of the same day all succeed, reaching a state that violates
invariant I2; moreover every value whatsoever is accepted at that key. -/
theorem claim10_adapter_breaks_I2 :
    postEmployee {} empA = Except.ok dbStep1 ∧
    postActivity dbStep1 keyFirst leaveMarkerVal = Except.ok dbStep2 ∧
    postActivity dbStep2 keySecond workVal = Except.ok dbStep3 ∧
    getActivityCell dbStep3 keyFirst = some leaveMarkerVal ∧
    leaveMarkerVal.type = "leave" ∧
    leaveMarkerVal.description = some "FULL_DAY_LEAVE" ∧
    getActivityCell dbStep3 keySecond = some workVal ∧
    countKey dbStep3.activities keySecond = 1 ∧
    (∀ v : ActValue, (postActivity dbStep2 keySecond v).isOk = true) := by
  refine ⟨rfl, rfl, rfl, by decide, rfl, rfl, by decide, by decide, ?_⟩
  intro v
  rw [postActivity, if_pos (by decide)]
  rfl

end Timesheet
